import Mathlib

/-!
Verification development for the BLSync job-lifecycle engine.

The definitions below are shallow embeddings of the Python source:
  * `src/blsync/task_models.py` — task data model and data-access layer,
  * `src/blsync/api.py`        — HTTP admission / override endpoints,
  * `src/blsync/main.py`       — producer / consumer loops and the job executor.

Machine-level details that are external collaborators (SQLAlchemy, the JSON
standard library, asyncio) are modelled by their documented observable
behaviour on the fragments the code exercises.
-/

namespace BLSync

/-- Task status enumeration, from `task_models.py` (`class TaskStatus`):
PENDING, EXECUTING, COMPLETED, FAILED. -/
inductive TaskStatus
  | pending
  | executing
  | completed
  | failed
deriving DecidableEq, Repr

/-- One row of the `tasks` table, from `task_models.py` (`class TaskModel`).
Timestamps are modelled as naturals; `completed_at` and `error_message` are
nullable exactly as in the schema.  `task_data` is the serialized payload,
kept opaque. -/
structure TaskRow where
  id : Nat
  task_type : String
  task_key : String
  task_data : String
  status : TaskStatus
  created_at : Nat
  updated_at : Nat
  completed_at : Option Nat
  error_message : Option String
deriving DecidableEq, Repr

/-! ### Natural-key serialization (`make_bili_video_key` / `parse_bili_video_key`)

`task_models.py` builds the key with `json.dumps({"bvid": bvid, "favid": favid},
sort_keys=True)` and parses it with `json.loads`.  The JSON library is external
to the repository, so its behaviour on the fragment used here is modelled
faithfully: `json.dumps` with default options (`ensure_ascii=True`) emits
`\x7b"bvid": <enc>, "favid": <enc>\x7d` where `<enc>` escapes `"` and `\`,
uses the short escapes for BS, FF, LF, CR, TAB, leaves printable ASCII
(0x20–0x7e) literal, and writes every other scalar as `\uXXXX` (lower-case
hex, surrogate pairs above 0xFFFF).  `json.loads` (strict mode) reverses
these escapes and rejects raw control characters inside strings. -/

/-- Lower-case hexadecimal digit character, as produced by Python `%04x`. -/
def hexDigitChar (n : Nat) : Char :=
  match n with
  | 0 => '0' | 1 => '1' | 2 => '2' | 3 => '3' | 4 => '4'
  | 5 => '5' | 6 => '6' | 7 => '7' | 8 => '8' | 9 => '9'
  | 10 => 'a' | 11 => 'b' | 12 => 'c' | 13 => 'd' | 14 => 'e'
  | _ => 'f'

/-- Four-digit lower-case hex rendering of `n < 0x10000` (Python `\uXXXX`). -/
def hex4 (n : Nat) : List Char :=
  [hexDigitChar (n / 4096 % 16), hexDigitChar (n / 256 % 16),
   hexDigitChar (n / 16 % 16), hexDigitChar (n % 16)]

/-- Encoding of one character by `json.dumps` with `ensure_ascii=True`
(the escape table of `json.encoder.py_encode_basestring_ascii`). -/
def escapeChar (c : Char) : List Char :=
  if c = '"' then ['\\', '"']
  else if c = '\\' then ['\\', '\\']
  else if c = '\n' then ['\\', 'n']
  else if c = '\r' then ['\\', 'r']
  else if c = '\t' then ['\\', 't']
  else if c.toNat = 8 then ['\\', 'b']
  else if c.toNat = 12 then ['\\', 'f']
  else if 0x20 ≤ c.toNat ∧ c.toNat ≤ 0x7e then [c]
  else if c.toNat < 0x10000 then '\\' :: 'u' :: hex4 c.toNat
  else
    ('\\' :: 'u' :: hex4 (0xd800 + (c.toNat - 0x10000) / 1024)) ++
    ('\\' :: 'u' :: hex4 (0xdc00 + (c.toNat - 0x10000) % 1024))

/-- JSON string-body encoding of a whole character sequence. -/
def escapeList : List Char → List Char
  | [] => []
  | c :: cs => escapeChar c ++ escapeList cs

/-- Left brace character (0x7b). -/
def lbraceChar : Char := Char.ofNat 123

/-- Right brace character (0x7d). -/
def rbraceChar : Char := Char.ofNat 125

/-- Characters `\x7b"bvid": "` opening the serialized key object
(`sort_keys=True` puts `bvid` before `favid`; separators are the
`json.dumps` defaults `", "` and `": "`). -/
def keyOpen : List Char :=
  [lbraceChar, '"', 'b', 'v', 'i', 'd', '"', ':', ' ', '"']

/-- Characters `, "favid": "` between the two serialized values
(after the closing quote of the `bvid` value). -/
def keyMid : List Char :=
  [',', ' ', '"', 'f', 'a', 'v', 'i', 'd', '"', ':', ' ', '"']

/-- Character-level body of `make_bili_video_key` (`task_models.py` 138–149):
`json.dumps(\x7b"bvid": bvid, "favid": favid\x7d, sort_keys=True)`. -/
def make_bili_video_key_chars (bvid favid : List Char) : List Char :=
  keyOpen ++ escapeList bvid ++ '"' :: keyMid ++ escapeList favid ++
    ['"', rbraceChar]

/-- `make_bili_video_key` from `task_models.py` lines 138–149. -/
def make_bili_video_key (bvid favid : String) : String :=
  ⟨make_bili_video_key_chars bvid.data favid.data⟩

/-- Value of a hexadecimal digit character (`json.loads` accepts both cases);
the ranges are the code points of `0`–`9`, `a`–`f` and `A`–`F`. -/
def hexVal? (c : Char) : Option Nat :=
  if 48 ≤ c.toNat ∧ c.toNat ≤ 57 then some (c.toNat - 48)
  else if 97 ≤ c.toNat ∧ c.toNat ≤ 102 then some (c.toNat - 87)
  else if 65 ≤ c.toNat ∧ c.toNat ≤ 70 then some (c.toNat - 55)
  else none

/-- Builds a character from a code point, failing on values that are not
Unicode scalar values (surrogates and out-of-range numbers). -/
def mkChar? (n : Nat) : Option Char :=
  if Nat.isValidChar n then some (Char.ofNat n) else none

/-- Reads four hex digits (`json.loads` on the `XXXX` of a `\uXXXX` escape). -/
def parseHex4 : List Char → Option (Nat × List Char)
  | h1 :: h2 :: h3 :: h4 :: rest =>
    match hexVal? h1, hexVal? h2, hexVal? h3, hexVal? h4 with
    | some d1, some d2, some d3, some d4 =>
        some (d1 * 4096 + d2 * 256 + d3 * 16 + d4, rest)
    | _, _, _, _ => none
  | _ => none

/-- Prepends a decoded character to the result of parsing the remainder. -/
def consFirst (c : Char) (r : Option (List Char × List Char)) :
    Option (List Char × List Char) :=
  r.map (fun p => (c :: p.1, p.2))

/-- Decoding of one backslash escape by the `json.loads` string scanner
(`json.scanner` strict mode), given the characters after the backslash: the
short escapes, and `\uXXXX` with surrogate-pair recombination.  Lone
surrogates — which the serializer never emits — are rejected because they
are not scalar values. -/
def decodeEscape : List Char → Option (Char × List Char)
  | [] => none
  | e :: rest =>
    if e = '"' then some ('"', rest)
    else if e = '\\' then some ('\\', rest)
    else if e = '/' then some ('/', rest)
    else if e = 'b' then some (Char.ofNat 8, rest)
    else if e = 'f' then some (Char.ofNat 12, rest)
    else if e = 'n' then some ('\n', rest)
    else if e = 'r' then some ('\r', rest)
    else if e = 't' then some ('\t', rest)
    else if e = 'u' then
      match parseHex4 rest with
      | none => none
      | some (n, rest3) =>
        if 0xd800 ≤ n ∧ n < 0xdc00 then
          match rest3 with
          | b2 :: u2 :: rest4 =>
            if b2 = '\\' ∧ u2 = 'u' then
              match parseHex4 rest4 with
              | none => none
              | some (m, rest5) =>
                if 0xdc00 ≤ m ∧ m < 0xe000 then
                  match mkChar? (0x10000 + ((n - 0xd800) * 1024 + (m - 0xdc00))) with
                  | none => none
                  | some ch => some (ch, rest5)
                else none
            else none
          | _ => none
        else
          match mkChar? n with
          | none => none
          | some ch => some (ch, rest3)
    else none

/-- Fuel-indexed body of the `json.loads` string scanner: reads the body of
a JSON string up to and including its closing quote, decoding backslash
escapes with `decodeEscape` and rejecting raw control characters. -/
def parseJStringAux : Nat → List Char → Option (List Char × List Char)
  | 0, _ => none
  | _ + 1, [] => none
  | fuel + 1, c :: rest =>
    if c = '"' then some ([], rest)
    else if c = '\\' then
      match decodeEscape rest with
      | none => none
      | some (ch, rest2) => consFirst ch (parseJStringAux fuel rest2)
    else if 0x20 ≤ c.toNat then consFirst c (parseJStringAux fuel rest)
    else none

/-- JSON string-body scanner with enough fuel for its input. -/
def parseJString (xs : List Char) : Option (List Char × List Char) :=
  parseJStringAux (xs.length + 1) xs

/-- Consumes an expected literal character sequence, failing on mismatch. -/
def dropExact : List Char → List Char → Option (List Char)
  | [], xs => some xs
  | _ :: _, [] => none
  | p :: ps, x :: xs => if x = p then dropExact ps xs else none

/-- Character-level body of `parse_bili_video_key` (`task_models.py` 152–163):
`json.loads` applied to a canonical two-field key object, then projection of
the `bvid` and `favid` fields. -/
def parse_bili_video_key_chars (xs : List Char) :
    Option (List Char × List Char) :=
  match dropExact keyOpen xs with
  | none => none
  | some r1 =>
    match parseJString r1 with
    | none => none
    | some (b, r2) =>
      match dropExact keyMid r2 with
      | none => none
      | some r3 =>
        match parseJString r3 with
        | none => none
        | some (f, r4) =>
          if r4 = [rbraceChar] then some (b, f) else none

/-- `parse_bili_video_key` from `task_models.py` lines 152–163.  The Python
function raises on malformed input; the model returns `none` there. -/
def parse_bili_video_key (task_key : String) : Option (String × String) :=
  match parse_bili_video_key_chars task_key.data with
  | none => none
  | some (b, f) => some (⟨b⟩, ⟨f⟩)

/-! ### Data-access layer (`task_models.py`) -/

/-- Row transformation of `TaskDAL.update_task_status` (`task_models.py`
238–274): the `values` dictionary built there sets `status`, adds
`completed_at = now` and `error_message = None` when the new status is
COMPLETED, adds `error_message = error_message` when it is FAILED, and the
column-level `onupdate` refreshes `updated_at`.  Note that no branch ever
clears `completed_at`. -/
def updateValues (r : TaskRow) (st : TaskStatus) (msg : Option String)
    (now : Nat) : TaskRow :=
  match st with
  | .completed =>
      { r with status := st, updated_at := now, completed_at := some now,
               error_message := none }
  | .failed => { r with status := st, updated_at := now, error_message := msg }
  | _ => { r with status := st, updated_at := now }

/-- `TaskDAL.update_task_status` (`task_models.py` 238–274): an atomic
`UPDATE tasks SET ... WHERE task_key = :key`.  The SQL statement rewrites
every matching row (the unique index makes at most one match). -/
def update_task_status (store : List TaskRow) (key : String) (st : TaskStatus)
    (msg : Option String) (now : Nat) : List TaskRow :=
  store.map (fun r => if r.task_key = key then updateValues r st msg now else r)

/-- `TaskDAL.get_task_by_key` (`task_models.py` 223–236). -/
def get_task_by_key (store : List TaskRow) (key : String) : Option TaskRow :=
  store.find? (fun r => decide (r.task_key = key))

/-- Freshly inserted row of `TaskModel.create_bili_video_task` /
`from_task_context` (`task_models.py` 94–135): status PENDING, timestamps
defaulted, `completed_at` and `error_message` NULL. -/
def newBiliVideoRow (id : Nat) (bvid favid ctx : String) (now : Nat) : TaskRow :=
  { id := id, task_type := "bili_video",
    task_key := make_bili_video_key bvid favid, task_data := ctx,
    status := .pending, created_at := now, updated_at := now,
    completed_at := none, error_message := none }

/-- `BiliVideoTaskDAL.create_bili_video_task` (`task_models.py` 444–466):
inserts a new PENDING row. -/
def create_bili_video_task (store : List TaskRow) (id : Nat)
    (bvid favid ctx : String) (now : Nat) : List TaskRow :=
  store ++ [newBiliVideoRow id bvid favid ctx now]

/-- `BiliVideoTaskDAL.has_bili_video_task` (`task_models.py` 468–481); the
producer loop in `main.py` calls it under the name `bili_video_task_exists`. -/
def has_bili_video_task (store : List TaskRow) (bvid favid : String) : Bool :=
  (get_task_by_key store (make_bili_video_key bvid favid)).isSome

/-- `BiliVideoTaskDAL.get_bili_video_task_status` (`task_models.py` 483–500). -/
def get_bili_video_task_status (store : List TaskRow) (bvid favid : String) :
    Option TaskStatus :=
  (get_task_by_key store (make_bili_video_key bvid favid)).map (fun r => r.status)

/-- `BiliVideoTaskDAL.update_bili_video_task` (`task_models.py` 562–597):
overwrites `task_data`; when `reset_status` is true it also sets the status
back to PENDING and clears `error_message`.  `completed_at` is not touched.
The ORM flush refreshes `updated_at`. -/
def update_bili_video_task (store : List TaskRow) (bvid favid ctx : String)
    (reset_status : Bool) (now : Nat) : List TaskRow :=
  store.map (fun r =>
    if r.task_key = make_bili_video_key bvid favid then
      if reset_status then
        { r with task_data := ctx, updated_at := now, status := .pending,
                 error_message := none }
      else { r with task_data := ctx, updated_at := now }
    else r)

/-- Filter of `TaskDAL.get_tasks_paginated` (`task_models.py` 332–396): the
optional `WHERE status = :status` clause, shared by the COUNT and the page
query. -/
def statusFilter (store : List TaskRow) (status : Option TaskStatus) :
    List TaskRow :=
  match status with
  | none => store
  | some st => store.filter (fun r => decide (r.status = st))

/-- Result shape of `TaskDAL.get_tasks_paginated`. -/
structure PageResult where
  items : List TaskRow
  total : Nat
  page : Nat
  page_size : Nat
deriving DecidableEq, Repr

/-- Descending `created_at` order used by `ORDER BY created_at DESC`. -/
def createdDesc (a b : TaskRow) : Prop := b.created_at ≤ a.created_at

instance : DecidableRel createdDesc := fun a b => Nat.decLe b.created_at a.created_at

instance : IsTotal TaskRow createdDesc := ⟨fun a b => Nat.le_total b.created_at a.created_at⟩

instance : IsTrans TaskRow createdDesc := ⟨fun _ _ _ hab hbc => le_trans hbc hab⟩

/-- Ascending `created_at` order used by `get_pending_tasks`
(`ORDER BY created_at`). -/
def createdAsc (a b : TaskRow) : Prop := a.created_at ≤ b.created_at

instance : DecidableRel createdAsc := fun a b => Nat.decLe a.created_at b.created_at

/-- `TaskDAL.get_tasks_paginated` (`task_models.py` 332–396):
`SELECT COUNT(*)` over the filtered rows, then the filtered rows ordered by
`created_at DESC` with `LIMIT :page_size OFFSET (page-1)*page_size`.  SQLite
returns the rows in some order satisfying `ORDER BY`; the model fixes the
deterministic insertion sort as its representative of that order. -/
def get_tasks_paginated (store : List TaskRow) (page page_size : Nat)
    (status : Option TaskStatus) : PageResult :=
  let rows := statusFilter store status
  let sorted := List.insertionSort createdDesc rows
  { items := (sorted.drop ((page - 1) * page_size)).take page_size,
    total := rows.length, page := page, page_size := page_size }

/-- `TaskDAL.get_pending_tasks` (`task_models.py` 291–311): the PENDING rows
ordered by `created_at` ascending. -/
def get_pending_tasks (store : List TaskRow) : List TaskRow :=
  List.insertionSort createdAsc
    (store.filter (fun r => decide (r.status = TaskStatus.pending)))

/-! ### HTTP endpoints (`api.py`) -/

/-- Client-visible rejection of an endpoint: an HTTP status code with a
detail string (FastAPI `HTTPException`). -/
structure ApiErr where
  code : Nat
  detail : String
deriving DecidableEq, Repr

/-- Valid values of the `status` field of `UpdateTaskStatusRequest`,
from `\x7bs.value for s in TaskStatus\x7d` in `api.py`. -/
def validStatusStrs : List String := ["pending", "executing", "completed", "failed"]

/-- Python `TaskStatus(request.status)` on an already-validated string. -/
def statusOfStr (s : String) : TaskStatus :=
  if s = "pending" then .pending
  else if s = "executing" then .executing
  else if s = "completed" then .completed
  else .failed

/-- Python truthiness of the optional `error_message` field: `None` and the
empty string are falsy. -/
def msgTruthy : Option String → Bool
  | none => false
  | some s => decide (s ≠ "")

/-- `update_task_status` endpoint, `api.py` 205–262 (administrative status
override).  Returns the store after the request together with `none` on
success or the raised `HTTPException` on rejection.  Mirrors the code: the
status string is validated first; the task is looked up by id; setting FAILED
with a truthy message stores it; setting FAILED otherwise raises 400 before
any mutation; setting COMPLETED stamps `completed_at` from the row's current
`updated_at` and clears `error_message`; any other status is assigned with no
further bookkeeping.  The ORM flush refreshes `updated_at` on mutated rows. -/
def api_update_task_status (store : List TaskRow) (task_id : Nat)
    (status_str : String) (msg : Option String) (now : Nat) :
    List TaskRow × Option ApiErr :=
  if status_str ∉ validStatusStrs then
    (store, some ⟨400, "Invalid status"⟩)
  else
    match store.find? (fun r => decide (r.id = task_id)) with
    | none => (store, some ⟨404, "Task not found"⟩)
    | some _ =>
      let st := statusOfStr status_str
      if st = TaskStatus.failed ∧ msgTruthy msg = true then
        (store.map (fun r => if r.id = task_id then
            { r with status := .failed, error_message := msg, updated_at := now }
          else r), none)
      else if st = TaskStatus.failed then
        (store, some ⟨400, "error_message is required when status is failed"⟩)
      else if st = TaskStatus.completed then
        (store.map (fun r => if r.id = task_id then
            { r with status := .completed, completed_at := some r.updated_at,
                     error_message := none, updated_at := now }
          else r), none)
      else
        (store.map (fun r => if r.id = task_id then
            { r with status := st, updated_at := now }
          else r), none)

/-- `create_task` endpoint, `api.py` 53–112 (job admission).  When a row with
the natural key exists its payload is updated, resetting the status to
PENDING exactly when the existing status is FAILED or COMPLETED; otherwise a
new PENDING row is created.  The second component is the `status` field of
the JSON response. -/
def api_create_task (store : List TaskRow) (bid favid ctx : String)
    (newId now : Nat) : List TaskRow × String :=
  match get_bili_video_task_status store bid favid with
  | some st =>
    (update_bili_video_task store bid favid ctx
      (decide (st = TaskStatus.failed ∨ st = TaskStatus.completed)) now,
     "updated")
  | none => (create_bili_video_task store newId bid favid ctx now, "success")

/-! ### Producer loop (`main.py` `task_producer`, lines 141–185) -/

/-- Per-item body of the producer loop: for a catalog pair
`(bvid, task_name)` it skips the item if a task row already exists
(whatever its status), skips it if the video is already downloaded, and
otherwise inserts a fresh PENDING row.  No branch resets an existing row. -/
def producer_process_item (store : List TaskRow) (bvid task_name ctx : String)
    (downloaded : List String) (newId now : Nat) : List TaskRow :=
  if has_bili_video_task store bvid task_name then store
  else if bvid ∈ downloaded then store
  else create_bili_video_task store newId bvid task_name ctx now

/-! ### Store-mutation history

The operations that drive a row's lifecycle, per the claim sources: the two
DAL mutators, the administrative override, HTTP admission, and the producer.
A history is a list of these applied in order. -/

/-- One store mutation. -/
inductive StoreOp
  | dalUpdateStatus (key : String) (st : TaskStatus) (msg : Option String) (now : Nat)
  | dalUpdateBili (bvid favid ctx : String) (reset : Bool) (now : Nat)
  | apiOverride (id : Nat) (status_str : String) (msg : Option String) (now : Nat)
  | apiCreate (bid favid ctx : String) (newId now : Nat)
  | producerItem (bvid favid ctx : String) (downloaded : List String) (newId now : Nat)
deriving Repr

/-- Effect of one operation on the store (rejected override requests leave
the store unchanged, as the endpoint raises before committing). -/
def applyStoreOp (store : List TaskRow) : StoreOp → List TaskRow
  | .dalUpdateStatus key st msg now => update_task_status store key st msg now
  | .dalUpdateBili b f ctx reset now => update_bili_video_task store b f ctx reset now
  | .apiOverride id ss msg now => (api_update_task_status store id ss msg now).1
  | .apiCreate b f ctx newId now => (api_create_task store b f ctx newId now).1
  | .producerItem b f ctx dl newId now => producer_process_item store b f ctx dl newId now

/-- A history of store mutations applied in order. -/
def applyStoreOps (store : List TaskRow) (ops : List StoreOp) : List TaskRow :=
  ops.foldl applyStoreOp store

/-- Rows whose status is COMPLETED carry a completion timestamp. -/
def completedImpliesStamp (store : List TaskRow) : Prop :=
  ∀ r ∈ store, r.status = TaskStatus.completed → r.completed_at ≠ none

/-! ### Consumer loop, executor and concurrency limiter
(`main.py` `task_consumer` 91–138, `process_single_task` 53–88,
`get_semaphore` 42–46)

The event-driven scheduler is modelled as a small-step system.  The state
holds the job store, the free permits of the `asyncio.Semaphore`, the
execution units spawned with `asyncio.create_task`, and a ghost log of the
EXECUTING transitions performed.  One `poll` event is a full consumer poll
cycle: it fetches the PENDING rows and dispatches one unit per row — the
store is not written by the cycle itself, because the EXECUTING claim is the
first statement *inside* `process_single_task`, which runs only after the
dispatch.  An `acquire` event is a unit entering `async with get_semaphore()`
(possible only with a free permit) followed by its EXECUTING write; a
`finish` event is the unit's body terminating with some outcome — completing,
timing out, or raising — which writes the final status and, because the
status write and the release sit in the `async with` / `try`–`except`
structure, always returns the permit. -/

/-- Lifecycle phase of one spawned execution unit. -/
inductive Phase
  | waiting
  | running
  | done
deriving DecidableEq, Repr

/-- One `asyncio` task spawned by the consumer for a job row. -/
structure ExecUnit where
  key : String
  phase : Phase
deriving DecidableEq, Repr

/-- The configuration fields the engine reads (`configs.py`). -/
structure SysConfig where
  max_concurrent_tasks : Nat
  task_timeout : Nat
deriving DecidableEq, Repr

/-- State of the scheduler: store, free semaphore permits, spawned units and
the ghost log of EXECUTING claims. -/
structure SysState where
  store : List TaskRow
  permits : Nat
  units : List ExecUnit
  claimLog : List String
deriving DecidableEq, Repr

/-- Result of `task.execute()` inside `process_single_task`: normal return,
`asyncio.TimeoutError` from `asyncio.wait_for`, or any other exception. -/
inductive Outcome
  | success
  | timeout
  | failure (msg : String)
deriving DecidableEq, Repr

/-- Python `repr` of the parsed `(bvid, favid)` tuple appearing in the
executor's log and error messages (`f"... \x7b(bvid, favid)\x7d ..."`),
for identifiers without quote or escape characters. -/
def taskTupleRepr (key : String) : String :=
  match parse_bili_video_key key with
  | some (b, f) => "(\x27" ++ b ++ "\x27, \x27" ++ f ++ "\x27)"
  | none => "<unparseable task key>"

/-- Message stored on timeout (`process_single_task`, `main.py` 77–82):
`f"Task \x7b(bvid, favid)\x7d timed out after \x7bconfig.task_timeout\x7ds"`. -/
def timeoutMsg (key : String) (t : Nat) : String :=
  "Task " ++ taskTupleRepr key ++ " timed out after " ++ toString t ++ "s"

/-- Message stored on any other exception (`main.py` 83–88):
`f"Error processing task \x7b(bvid, favid)\x7d: \x7be\x7d"`. -/
def execErrorMsg (key : String) (e : String) : String :=
  "Error processing task " ++ taskTupleRepr key ++ ": " ++ e

/-- Status transition performed after `task.execute()` resolves, per the
`try`–`except` arms of `process_single_task`. -/
def executeResult (cfg : SysConfig) (key : String) (o : Outcome) :
    TaskStatus × Option String :=
  match o with
  | .success => (TaskStatus.completed, none)
  | .timeout => (TaskStatus.failed, some (timeoutMsg key cfg.task_timeout))
  | .failure e => (TaskStatus.failed, some (execErrorMsg key e))

/-- Scheduler events. -/
inductive Event
  | poll
  | acquire (i : Nat) (now : Nat)
  | finish (i : Nat) (o : Outcome) (now : Nat)
deriving Repr

/-- One consumer poll cycle (`task_consumer`, `main.py` 103–134): fetch the
PENDING rows and spawn `process_single_task` for each.  The per-iteration
guard `if get_semaphore()._value <= 0: break` reads the free-permit counter,
which cannot change during the cycle (the loop body never awaits), so the
cycle dispatches either every fetched row or none.  Dispatch does not write
the store. -/
def stepPoll (s : SysState) : SysState :=
  if s.permits = 0 then s
  else
    { s with units := (s.units ++
        (get_pending_tasks s.store).map
          (fun r => { key := r.task_key, phase := Phase.waiting })) }

/-- Unit `i` enters `async with get_semaphore()` (needs a free permit) and
performs the EXECUTING write that opens `process_single_task`'s `try` block. -/
def stepAcquire (s : SysState) (i now : Nat) : SysState :=
  match s.units.get? i with
  | none => s
  | some u =>
    if u.phase = Phase.waiting ∧ 0 < s.permits then
      { store := update_task_status s.store u.key TaskStatus.executing none now,
        permits := s.permits - 1,
        units := s.units.set i { u with phase := Phase.running },
        claimLog := s.claimLog ++ [u.key] }
    else s

/-- Unit `i`'s body resolves with outcome `o`: the corresponding status write
runs, and the permit is returned — on every outcome, because leaving the
`async with` block releases the semaphore whether the body returned, timed
out, or raised. -/
def stepFinish (cfg : SysConfig) (s : SysState) (i : Nat) (o : Outcome)
    (now : Nat) : SysState :=
  match s.units.get? i with
  | none => s
  | some u =>
    if u.phase = Phase.running then
      { store := update_task_status s.store u.key
          (executeResult cfg u.key o).1 (executeResult cfg u.key o).2 now,
        permits := s.permits + 1,
        units := s.units.set i { u with phase := Phase.done },
        claimLog := s.claimLog }
    else s

/-- Step function of the scheduler. -/
def step (cfg : SysConfig) (s : SysState) : Event → SysState
  | .poll => stepPoll s
  | .acquire i now => stepAcquire s i now
  | .finish i o now => stepFinish cfg s i o now

/-- Initial state: the given store, all permits free, nothing spawned. -/
def initState (cfg : SysConfig) (store : List TaskRow) : SysState :=
  { store := store, permits := cfg.max_concurrent_tasks, units := [], claimLog := [] }

/-- Execution of a whole event schedule. -/
def runEvents (cfg : SysConfig) (store : List TaskRow) (evs : List Event) :
    SysState :=
  evs.foldl (step cfg) (initState cfg store)

/-- Number of units currently inside the download/postprocess stage. -/
def countRunning (units : List ExecUnit) : Nat :=
  units.countP (fun u => decide (u.phase = Phase.running))

/-! ### Concrete sample data for witnesses and counterexamples -/

/-- A fresh PENDING row for `(BV1, fav1)` as the producer or admission
endpoint creates it. -/
def sampleRow : TaskRow := newBiliVideoRow 1 "BV1" "fav1" "ctx" 0

/-- The serialized key of `sampleRow`. -/
def sampleKey : String := make_bili_video_key "BV1" "fav1"

/-- A 25-row store for the pagination scenario. -/
def sampleJobs : List TaskRow :=
  (List.range 25).map (fun i => newBiliVideoRow i "BV1" (toString i) "ctx" i)

/-- `sampleRow` after a failed execution. -/
def sampleFailedRow : TaskRow :=
  { sampleRow with status := TaskStatus.failed, error_message := some "boom" }

/-- A store holding one FAILED row. -/
def sampleFailedStore : List TaskRow := [sampleFailedRow]

/-- A store holding one COMPLETED row. -/
def sampleCompletedStore : List TaskRow :=
  [{ sampleRow with status := TaskStatus.completed, completed_at := some 3 }]

/-- A configuration with two permits and the default 300 s timeout. -/
def sampleCfg : SysConfig := { max_concurrent_tasks := 2, task_timeout := 300 }

/-- A scheduler state with one claimed job mid-execution. -/
def sampleExecState : SysState :=
  { store := [{ sampleRow with status := TaskStatus.executing }],
    permits := 1,
    units := [{ key := sampleKey, phase := Phase.running }],
    claimLog := [sampleKey] }

/-- History: complete `sampleRow`, then fail it. -/
def sampleHistoryC2 : List StoreOp :=
  [.dalUpdateStatus sampleKey TaskStatus.completed none 1,
   .dalUpdateStatus sampleKey TaskStatus.failed (some "boom") 2]

/-- History: fail `sampleRow`, then override its status back to PENDING. -/
def sampleHistoryC4 : List StoreOp :=
  [.dalUpdateStatus sampleKey TaskStatus.failed (some "boom") 1,
   .apiOverride 1 "pending" none 2]

/-! ## Theorems

### Key serialization round trip (C10) -/

/-- Decoding a hex digit character undoes encoding it. -/
theorem hexVal?_hexDigitChar (d : Nat) (h : d < 16) :
    hexVal? (hexDigitChar d) = some d := by
  interval_cases d <;> decide

/-- A character's own code point is accepted by `mkChar?`. -/
theorem mkChar?_toNat (c : Char) : mkChar? c.toNat = some c := by
  have hv : Nat.isValidChar c.toNat := c.valid
  simp [mkChar?, hv, Char.ofNat_toNat]

/-- Reading four hex digits undoes `hex4`. -/
theorem parseHex4_hex4 (n : Nat) (h : n < 65536) (t : List Char) :
    parseHex4 (hex4 n ++ t) = some (n, t) := by
  have h1 : n / 4096 % 16 < 16 := Nat.mod_lt _ (by omega)
  have h2 : n / 256 % 16 < 16 := Nat.mod_lt _ (by omega)
  have h3 : n / 16 % 16 < 16 := Nat.mod_lt _ (by omega)
  have h4 : n % 16 < 16 := Nat.mod_lt _ (by omega)
  simp [hex4, parseHex4, hexVal?_hexDigitChar _ h1, hexVal?_hexDigitChar _ h2,
    hexVal?_hexDigitChar _ h3, hexVal?_hexDigitChar _ h4]
  omega

/-- The scanner consumes a surrogate-pair escape and decodes the combined
code point. -/
theorem parseJStringAux_surrogatePair (a b : Nat) (t : List Char) (fuel : Nat)
    (ha : a < 65536) (hb : b < 65536)
    (hs1 : 0xd800 ≤ a ∧ a < 0xdc00) (hs2 : 0xdc00 ≤ b ∧ b < 0xe000) (ch : Char)
    (hch : mkChar? (0x10000 + ((a - 0xd800) * 1024 + (b - 0xdc00))) = some ch) :
    parseJStringAux (fuel + 1)
      ('\\' :: 'u' :: (hex4 a ++ ('\\' :: 'u' :: (hex4 b ++ t)))) =
      consFirst ch (parseJStringAux fuel t) := by
  simp [parseJStringAux, decodeEscape, parseHex4_hex4 _ ha, parseHex4_hex4 _ hb,
    hs1, hs2, hch]

/-- The scanner consumes the encoding of one character and decodes it back. -/
theorem parseJStringAux_escapeChar (c : Char) (t : List Char) (fuel : Nat) :
    parseJStringAux (fuel + 1) (escapeChar c ++ t) =
      consFirst c (parseJStringAux fuel t) := by
  have hval : Nat.isValidChar c.toNat := c.valid
  by_cases h1 : c = '"'
  · subst h1; simp [escapeChar, parseJStringAux, decodeEscape]
  by_cases h2 : c = '\\'
  · subst h2; simp [escapeChar, parseJStringAux, decodeEscape]
  by_cases h3 : c = '\n'
  · subst h3; simp [escapeChar, parseJStringAux, decodeEscape]
  by_cases h4 : c = '\r'
  · subst h4; simp [escapeChar, parseJStringAux, decodeEscape]
  by_cases h5 : c = '\t'
  · subst h5; simp [escapeChar, parseJStringAux, decodeEscape]
  by_cases h6 : c.toNat = 8
  · have hc : Char.ofNat 8 = c := by rw [← h6, Char.ofNat_toNat]
    simp [escapeChar, parseJStringAux, decodeEscape, h1, h2, h3, h4, h5, h6]
    rw [hc]
  by_cases h7 : c.toNat = 12
  · have hc : Char.ofNat 12 = c := by rw [← h7, Char.ofNat_toNat]
    simp [escapeChar, parseJStringAux, decodeEscape, h1, h2, h3, h4, h5, h6, h7]
    rw [hc]
  by_cases h8 : 0x20 ≤ c.toNat ∧ c.toNat ≤ 0x7e
  · simp [escapeChar, parseJStringAux, h1, h2, h3, h4, h5, h6, h7, h8, h8.1]
  by_cases h9 : c.toNat < 0x10000
  · have hns : ¬ (0xd800 ≤ c.toNat ∧ c.toNat < 0xdc00) := by
      rcases hval with hlt | ⟨hgt, _⟩ <;> omega
    simp [escapeChar, parseJStringAux, decodeEscape, h1, h2, h3, h4, h5, h6,
      h7, h8, h9, parseHex4_hex4 _ h9, hns, mkChar?_toNat]
  · have hub : c.toNat < 0x110000 := by
      rcases hval with hlt | ⟨_, hub⟩ <;> omega
    have ha : 0xd800 + (c.toNat - 0x10000) / 1024 < 65536 := by omega
    have hb : 0xdc00 + (c.toNat - 0x10000) % 1024 < 65536 := by
      have := Nat.mod_lt (c.toNat - 0x10000) (show 0 < 1024 by omega)
      omega
    have hs1 : 0xd800 ≤ 0xd800 + (c.toNat - 0x10000) / 1024 ∧
        0xd800 + (c.toNat - 0x10000) / 1024 < 0xdc00 := by
      constructor
      · omega
      · have : (c.toNat - 0x10000) / 1024 < 1024 := by
          apply Nat.div_lt_of_lt_mul; omega
        omega
    have hs2 : 0xdc00 ≤ 0xdc00 + (c.toNat - 0x10000) % 1024 ∧
        0xdc00 + (c.toNat - 0x10000) % 1024 < 0xe000 := by
      have := Nat.mod_lt (c.toNat - 0x10000) (show 0 < 1024 by omega)
      omega
    have hch : mkChar? (0x10000 +
        ((0xd800 + (c.toNat - 0x10000) / 1024 - 0xd800) * 1024 +
         (0xdc00 + (c.toNat - 0x10000) % 1024 - 0xdc00))) = some c := by
      have harg : 0x10000 +
          ((0xd800 + (c.toNat - 0x10000) / 1024 - 0xd800) * 1024 +
           (0xdc00 + (c.toNat - 0x10000) % 1024 - 0xdc00)) = c.toNat := by
        have := Nat.div_add_mod (c.toNat - 0x10000) 1024
        omega
      rw [harg, mkChar?_toNat]
    have he : escapeChar c =
        ('\\' :: 'u' :: hex4 (0xd800 + (c.toNat - 0x10000) / 1024)) ++
        ('\\' :: 'u' :: hex4 (0xdc00 + (c.toNat - 0x10000) % 1024)) := by
      simp [escapeChar, h1, h2, h3, h4, h5, h6, h7, h8, h9]
    rw [he]
    simp only [List.cons_append, List.append_assoc]
    exact parseJStringAux_surrogatePair _ _ t fuel ha hb hs1 hs2 c hch

/-- With fuel one more than the character count, the scanner inverts the
body encoding and stops at the closing quote. -/
theorem parseJStringAux_escapeList (s : List Char) : ∀ (fuel : Nat)
    (rest : List Char),
    parseJStringAux (s.length + fuel + 1) (escapeList s ++ '"' :: rest) =
      some (s, rest) := by
  induction s with
  | nil => intro fuel rest; simp [escapeList, parseJStringAux]
  | cons c cs ih =>
    intro fuel rest
    have hlen : (c :: cs).length + fuel + 1 = (cs.length + fuel + 1) + 1 := by
      simp [List.length_cons]; omega
    rw [hlen, escapeList, List.append_assoc, parseJStringAux_escapeChar, ih,
      consFirst]
    rfl

/-- Fuel-monotone form of the inversion lemma. -/
theorem parseJStringAux_ofFuel (s rest : List Char) (fuel : Nat)
    (h : s.length + 1 ≤ fuel) :
    parseJStringAux fuel (escapeList s ++ '"' :: rest) = some (s, rest) := by
  obtain ⟨k, rfl⟩ : ∃ k, fuel = s.length + k + 1 :=
    ⟨fuel - s.length - 1, by omega⟩
  exact parseJStringAux_escapeList s k rest

/-- The encoding of one character is nonempty. -/
theorem escapeChar_length_pos (c : Char) : 1 ≤ (escapeChar c).length := by
  unfold escapeChar
  repeat' split
  all_goals simp [hex4]

/-- The body encoding is at least as long as the source. -/
theorem escapeList_length (s : List Char) : s.length ≤ (escapeList s).length := by
  induction s with
  | nil => simp [escapeList]
  | cons c cs ih =>
    have := escapeChar_length_pos c
    simp only [escapeList, List.length_append, List.length_cons]
    omega

/-- The packaged scanner inverts the body encoding. -/
theorem parseJString_escapeList (s rest : List Char) :
    parseJString (escapeList s ++ '"' :: rest) = some (s, rest) := by
  apply parseJStringAux_ofFuel
  have := escapeList_length s
  simp only [List.length_append, List.length_cons]
  omega

/-- Consuming an expected literal sequence strips it. -/
theorem dropExact_append (ps xs : List Char) :
    dropExact ps (ps ++ xs) = some xs := by
  induction ps with
  | nil => simp [dropExact]
  | cons p ps ih => simp [dropExact, ih]

/-- Character-level round trip of the natural-key serialization. -/
theorem parse_make_chars (b f : List Char) :
    parse_bili_video_key_chars (make_bili_video_key_chars b f) = some (b, f) := by
  unfold make_bili_video_key_chars parse_bili_video_key_chars
  rw [List.append_assoc, List.append_assoc, List.append_assoc, dropExact_append]
  simp only [List.cons_append, List.append_assoc]
  rw [parseJString_escapeList]
  dsimp only
  rw [dropExact_append]
  dsimp only
  rw [show escapeList f ++ '"' :: rbraceChar :: List.nil =
      escapeList f ++ '"' :: [rbraceChar] from rfl, parseJString_escapeList]
  simp

/-- C10: for all strings `bvid` and `favid`, parsing the serialized natural
key round-trips — `parse_bili_video_key (make_bili_video_key bvid favid)`
returns exactly `(bvid, favid)` — and the serialization is deterministic:
equal pairs always produce the identical `task_key` string. -/
theorem C10_key_round_trip (bvid favid bvid2 favid2 : String)
    (hb : bvid = bvid2) (hf : favid = favid2) :
    parse_bili_video_key (make_bili_video_key bvid favid) = some (bvid, favid) ∧
    make_bili_video_key bvid favid = make_bili_video_key bvid2 favid2 := by
  subst hb; subst hf
  refine ⟨?_, rfl⟩
  show parse_bili_video_key ⟨make_bili_video_key_chars bvid.data favid.data⟩ = _
  unfold parse_bili_video_key
  rw [show (⟨make_bili_video_key_chars bvid.data favid.data⟩ : String).data =
      make_bili_video_key_chars bvid.data favid.data from rfl]
  rw [parse_make_chars]

/-- C10 witness: the round trip evaluated at a concrete pair. -/
theorem C10_key_round_trip_witness :
    parse_bili_video_key (make_bili_video_key "BV1xx411c7mu" "743488") =
      some ("BV1xx411c7mu", "743488") ∧
    make_bili_video_key "BV1xx411c7mu" "743488" =
      make_bili_video_key "BV1xx411c7mu" "743488" :=
  C10_key_round_trip "BV1xx411c7mu" "743488" "BV1xx411c7mu" "743488" rfl rfl

/-! ### Administrative override validation (C7) -/

/-- C7: every administrative status-override request that sets status FAILED
without supplying an error message is rejected with a client error
(4xx `HTTPException`), and the store is unchanged by the rejected request. -/
theorem C7_failed_override_rejected (store : List TaskRow) (task_id now : Nat) :
    (api_update_task_status store task_id "failed" none now).1 = store ∧
    ∃ e : ApiErr,
      (api_update_task_status store task_id "failed" none now).2 = some e ∧
      400 ≤ e.code ∧ e.code < 500 := by
  cases h : store.find? (fun r => decide (r.id = task_id)) with
  | none =>
    refine ⟨?_, ⟨404, "Task not found"⟩, ?_, by decide, by decide⟩ <;>
      simp [api_update_task_status, validStatusStrs, h]
  | some r =>
    refine ⟨?_, ⟨400, "error_message is required when status is failed"⟩, ?_,
        by decide, by decide⟩ <;>
      simp [api_update_task_status, validStatusStrs, statusOfStr, msgTruthy, h]

/-! ### Pagination (C8) -/

/-- C8: `get_tasks_paginated` returns `\x7bitems, total, page, page_size\x7d`
where `total` counts every row matching the optional status filter, the
items are the slice of the filter result at offset `(page-1)*page_size` of
length up to `page_size` taken from an ordering by `created_at` descending,
and hence 25 jobs with `page_size = 10` give 10 items and `total = 25` on
page 1 and 5 items on page 3 (see the witness).  The endpoint validates
`page ≥ 1` and `page_size ≥ 1` (`Query(ge=1)`). -/
theorem C8_pagination (store : List TaskRow) (page page_size : Nat)
    (status : Option TaskStatus) (hp : 1 ≤ page) (hps : 1 ≤ page_size) :
    (get_tasks_paginated store page page_size status).page = page ∧
    (get_tasks_paginated store page page_size status).page_size = page_size ∧
    (get_tasks_paginated store page page_size status).total =
      (statusFilter store status).length ∧
    ∃ sorted : List TaskRow, sorted.Perm (statusFilter store status) ∧
      List.Sorted createdDesc sorted ∧
      (get_tasks_paginated store page page_size status).items =
        (sorted.drop ((page - 1) * page_size)).take page_size ∧
      (get_tasks_paginated store page page_size status).items.length =
        min page_size
          ((statusFilter store status).length - (page - 1) * page_size) := by
  refine ⟨rfl, rfl, rfl,
    List.insertionSort createdDesc (statusFilter store status),
    List.perm_insertionSort _ _, List.sorted_insertionSort _ _, rfl, ?_⟩
  have hlen : (List.insertionSort createdDesc (statusFilter store status)).length =
      (statusFilter store status).length :=
    (List.perm_insertionSort _ _).length_eq
  simp [get_tasks_paginated, List.length_take, List.length_drop, hlen]

/-- C8 witness: the 25-job scenario, through the theorem. -/
theorem C8_pagination_witness :
    (get_tasks_paginated sampleJobs 1 10 none).total = 25 ∧
    (get_tasks_paginated sampleJobs 1 10 none).items.length = 10 ∧
    (get_tasks_paginated sampleJobs 3 10 none).items.length = 5 := by
  obtain ⟨-, -, htot, -, -, -, -, hlen1⟩ :=
    C8_pagination sampleJobs 1 10 none (by decide) (by decide)
  obtain ⟨-, -, -, -, -, -, -, hlen3⟩ :=
    C8_pagination sampleJobs 3 10 none (by decide) (by decide)
  refine ⟨htot.trans (by decide), hlen1.trans (by decide), hlen3.trans (by decide)⟩

/-! ### Producer retry behaviour (C3) -/

/-- C3 counterexample: the Producer observes a FAILED row for a catalog pair
and leaves it FAILED — it does not reset it to PENDING, refuting the claim
that FAILED rows are automatically retried by the producer cycle. -/
theorem C3_counterexample :
    get_bili_video_task_status
        (producer_process_item sampleFailedStore "BV1" "fav1" "ctx" [] 2 5)
        "BV1" "fav1" = some TaskStatus.failed ∧
    ¬ get_bili_video_task_status
        (producer_process_item sampleFailedStore "BV1" "fav1" "ctx" [] 2 5)
        "BV1" "fav1" = some TaskStatus.pending := by
  decide

/-- C3 (amended): for every catalog pair whose natural key already has a job
row — whatever its status, including FAILED — the producer cycle skips the
item and leaves the store unchanged; existing rows are never reset.
(Automatic retry of FAILED rows does not exist; a retry happens only through
the HTTP admission endpoint.) -/
theorem C3_producer_skips_existing (store : List TaskRow)
    (bvid task_name ctx : String) (downloaded : List String) (newId now : Nat)
    (h : has_bili_video_task store bvid task_name = true) :
    producer_process_item store bvid task_name ctx downloaded newId now = store := by
  unfold producer_process_item
  simp [h]

/-- C3 witness: the amended theorem at the FAILED sample store. -/
theorem C3_producer_skips_existing_witness :
    producer_process_item sampleFailedStore "BV1" "fav1" "ctx" [] 2 5 =
      sampleFailedStore :=
  C3_producer_skips_existing sampleFailedStore "BV1" "fav1" "ctx" [] 2 5
    (by decide)

/-! ### Idempotent admission (C9) -/

/-- Keyed lookup commutes with a store-wide rewrite that keeps `task_key`. -/
theorem get_task_by_key_map (store : List TaskRow) (key : String)
    (f : TaskRow → TaskRow) (hf : ∀ r, (f r).task_key = r.task_key) :
    get_task_by_key (store.map f) key = (get_task_by_key store key).map f := by
  unfold get_task_by_key
  rw [List.find?_map]
  have hps : ((fun r => decide (r.task_key = key)) ∘ f) =
      (fun r : TaskRow => decide (r.task_key = key)) := by
    funext r
    simp [Function.comp, hf]
  rw [hps]

/-- A found row satisfies the lookup key. -/
theorem get_task_by_key_eq (store : List TaskRow) (key : String) (r : TaskRow)
    (h : get_task_by_key store key = some r) : r.task_key = key := by
  unfold get_task_by_key at h
  have := List.find?_some h
  exact of_decide_eq_true this

/-- Keyed lookup after `update_bili_video_task`: the matched row (if any)
receives the payload update, with the optional PENDING reset. -/
theorem get_task_by_key_update_bili (store : List TaskRow)
    (bvid favid ctx : String) (reset : Bool) (now : Nat) :
    get_task_by_key (update_bili_video_task store bvid favid ctx reset now)
        (make_bili_video_key bvid favid) =
      (get_task_by_key store (make_bili_video_key bvid favid)).map
        (fun r => if reset then { r with task_data := ctx, updated_at := now, status := TaskStatus.pending, error_message := none }
                  else { r with task_data := ctx, updated_at := now }) := by
  unfold update_bili_video_task
  rw [get_task_by_key_map _ _ _ (by
    intro x
    by_cases hx : x.task_key = make_bili_video_key bvid favid
    · simp only [hx, if_true]
      cases reset <;> simp
    · simp [hx])]
  cases hfind : get_task_by_key store (make_bili_video_key bvid favid) with
  | none => rfl
  | some r =>
    have hrk := get_task_by_key_eq _ _ _ hfind
    simp [hrk]

/-- C9: resubmission through the admission endpoint is idempotent on the
natural key — when a row exists with status PENDING or EXECUTING, only its
payload (and `updated_at`) change and the status is untouched; when it
exists with status COMPLETED or FAILED, the payload is updated and the
status is reset to PENDING with `error_message` cleared; only when no row
exists is a new PENDING row appended. -/
theorem C9_admission_idempotent (store : List TaskRow) (bid favid ctx : String)
    (newId now : Nat) :
    (∀ r, get_task_by_key store (make_bili_video_key bid favid) = some r →
      ((r.status = TaskStatus.pending ∨ r.status = TaskStatus.executing) →
        get_task_by_key (api_create_task store bid favid ctx newId now).1
            (make_bili_video_key bid favid) =
          some { r with task_data := ctx, updated_at := now }) ∧
      ((r.status = TaskStatus.completed ∨ r.status = TaskStatus.failed) →
        get_task_by_key (api_create_task store bid favid ctx newId now).1
            (make_bili_video_key bid favid) =
          some { r with task_data := ctx, updated_at := now, status := TaskStatus.pending, error_message := none })) ∧
    (get_task_by_key store (make_bili_video_key bid favid) = none →
      (api_create_task store bid favid ctx newId now).1 =
        store ++ [newBiliVideoRow newId bid favid ctx now]) := by
  constructor
  · intro r hr
    have hst : get_bili_video_task_status store bid favid = some r.status := by
      unfold get_bili_video_task_status
      rw [hr]; rfl
    constructor
    · intro hpe
      have hreset : decide (r.status = TaskStatus.failed ∨
          r.status = TaskStatus.completed) = false := by
        rcases hpe with h | h <;> simp [h]
      unfold api_create_task
      rw [hst]
      dsimp only
      rw [get_task_by_key_update_bili, hr, hreset]
      simp
    · intro hcf
      have hreset : decide (r.status = TaskStatus.failed ∨
          r.status = TaskStatus.completed) = true := by
        rcases hcf with h | h <;> simp [h]
      unfold api_create_task
      rw [hst]
      dsimp only
      rw [get_task_by_key_update_bili, hr, hreset]
      simp
  · intro hnone
    have hst : get_bili_video_task_status store bid favid = none := by
      unfold get_bili_video_task_status
      rw [hnone]; rfl
    unfold api_create_task
    rw [hst]
    rfl

/-- C9 witness: resubmitting a COMPLETED job updates the payload and resets
it to PENDING, through the theorem. -/
theorem C9_admission_idempotent_witness :
    get_task_by_key (api_create_task sampleCompletedStore "BV1" "fav1" "new" 7 9).1
        (make_bili_video_key "BV1" "fav1") =
      some { sampleRow with task_data := "new", updated_at := 9, status := TaskStatus.pending, completed_at := some 3, error_message := none } := by
  have h := ((C9_admission_idempotent sampleCompletedStore "BV1" "fav1" "new"
      7 9).1
    { sampleRow with status := TaskStatus.completed, completed_at := some 3 }
    (by decide)).2 (Or.inl rfl)
  exact h.trans (by decide)

/-! ### The `completed_at` stamp (C2) -/

/-- C2 counterexample: completing a job and then failing it leaves
`completed_at` set while the status is FAILED, refuting the claimed
equivalence `completed_at` non-null iff status COMPLETED. -/
theorem C2_counterexample :
    ¬ (∀ r ∈ applyStoreOps [sampleRow] sampleHistoryC2,
        (r.completed_at ≠ none ↔ r.status = TaskStatus.completed)) := by
  decide

/-- Preservation of `completedImpliesStamp` by a store-wide rewrite whose
effect on each row either stamps it or keeps status and stamp. -/
theorem completedStamp_map (store : List TaskRow) (g : TaskRow → TaskRow)
    (h : completedImpliesStamp store)
    (hg : ∀ x ∈ store, (g x).status = TaskStatus.completed →
      (g x).completed_at ≠ none ∨
      ((g x).status = x.status ∧ (g x).completed_at = x.completed_at)) :
    completedImpliesStamp (store.map g) := by
  intro r hr hst
  rw [List.mem_map] at hr
  obtain ⟨x, hx, rfl⟩ := hr
  rcases hg x hx hst with h1 | ⟨h2, h3⟩
  · exact h1
  · rw [h3]
    exact h x hx (h2.symm.trans hst)

/-- `TaskDAL.update_task_status` preserves the stamp invariant. -/
theorem completedStamp_update_task_status (store : List TaskRow) (key : String)
    (st : TaskStatus) (msg : Option String) (now : Nat)
    (h : completedImpliesStamp store) :
    completedImpliesStamp (update_task_status store key st msg now) := by
  apply completedStamp_map store _ h
  intro x _ hgc
  by_cases hk : x.task_key = key
  · rw [if_pos hk] at hgc ⊢
    cases st <;> simp [updateValues] at hgc ⊢
  · rw [if_neg hk] at hgc ⊢
    exact Or.inr ⟨rfl, rfl⟩

/-- `BiliVideoTaskDAL.update_bili_video_task` preserves the stamp invariant. -/
theorem completedStamp_update_bili (store : List TaskRow)
    (bvid favid ctx : String) (reset : Bool) (now : Nat)
    (h : completedImpliesStamp store) :
    completedImpliesStamp (update_bili_video_task store bvid favid ctx reset now) := by
  apply completedStamp_map store _ h
  intro x _ hgc
  by_cases hk : x.task_key = make_bili_video_key bvid favid
  · rw [if_pos hk] at hgc ⊢
    cases reset <;> simp at hgc ⊢
  · rw [if_neg hk] at hgc ⊢
    exact Or.inr ⟨rfl, rfl⟩

/-- The administrative override endpoint preserves the stamp invariant. -/
theorem completedStamp_api_override (store : List TaskRow) (id2 : Nat)
    (ss : String) (msg : Option String) (now : Nat)
    (h : completedImpliesStamp store) :
    completedImpliesStamp (api_update_task_status store id2 ss msg now).1 := by
  unfold api_update_task_status
  by_cases hv : ss ∉ validStatusStrs
  · rw [if_pos hv]
    exact h
  rw [if_neg hv]
  cases hfind : store.find? (fun r => decide (r.id = id2)) with
  | none => exact h
  | some x0 =>
    dsimp only
    by_cases hc1 : statusOfStr ss = TaskStatus.failed ∧ msgTruthy msg = true
    · rw [if_pos hc1]
      apply completedStamp_map store _ h
      intro x _ hgc
      by_cases hid : x.id = id2
      · rw [if_pos hid] at hgc
        simp at hgc
      · rw [if_neg hid] at hgc ⊢
        exact Or.inr ⟨rfl, rfl⟩
    · rw [if_neg hc1]
      by_cases hc2 : statusOfStr ss = TaskStatus.failed
      · rw [if_pos hc2]
        exact h
      · rw [if_neg hc2]
        by_cases hc3 : statusOfStr ss = TaskStatus.completed
        · rw [if_pos hc3]
          apply completedStamp_map store _ h
          intro x _ hgc
          by_cases hid : x.id = id2
          · rw [if_pos hid]
            simp
          · rw [if_neg hid] at hgc ⊢
            exact Or.inr ⟨rfl, rfl⟩
        · rw [if_neg hc3]
          apply completedStamp_map store _ h
          intro x _ hgc
          by_cases hid : x.id = id2
          · rw [if_pos hid] at hgc
            simp at hgc
            exact absurd hgc hc3
          · rw [if_neg hid] at hgc ⊢
            exact Or.inr ⟨rfl, rfl⟩

/-- Appending a freshly created PENDING row preserves the stamp invariant. -/
theorem completedStamp_append_new (store : List TaskRow) (newId : Nat)
    (bvid favid ctx : String) (now : Nat) (h : completedImpliesStamp store) :
    completedImpliesStamp (create_bili_video_task store newId bvid favid ctx now) := by
  intro r hr hst
  unfold create_bili_video_task at hr
  rw [List.mem_append] at hr
  rcases hr with hr | hr
  · exact h r hr hst
  · simp at hr
    subst hr
    simp [newBiliVideoRow] at hst

/-- The admission endpoint preserves the stamp invariant. -/
theorem completedStamp_api_create (store : List TaskRow)
    (bid favid ctx : String) (newId now : Nat) (h : completedImpliesStamp store) :
    completedImpliesStamp (api_create_task store bid favid ctx newId now).1 := by
  unfold api_create_task
  cases hst : get_bili_video_task_status store bid favid with
  | none => exact completedStamp_append_new store newId bid favid ctx now h
  | some st => exact completedStamp_update_bili store bid favid ctx _ now h

/-- The producer item step preserves the stamp invariant. -/
theorem completedStamp_producer (store : List TaskRow)
    (bvid task_name ctx : String) (downloaded : List String) (newId now : Nat)
    (h : completedImpliesStamp store) :
    completedImpliesStamp (producer_process_item store bvid task_name ctx downloaded newId now) := by
  unfold producer_process_item
  by_cases h1 : has_bili_video_task store bvid task_name = true
  · rw [if_pos h1]
    exact h
  · rw [if_neg h1]
    by_cases h2 : bvid ∈ downloaded
    · rw [if_pos h2]
      exact h
    · rw [if_neg h2]
      exact completedStamp_append_new store newId bvid task_name ctx now h

/-- C2 (amended): one direction of the claimed equivalence holds and is
preserved by every store operation — a row whose status is COMPLETED always
carries a non-null `completed_at`.  The converse fails: no operation ever
clears `completed_at`, so a job that is failed or reset to PENDING after
having been COMPLETED keeps its old stamp (see the counterexample). -/
theorem C2_completed_stamp (store : List TaskRow) (ops : List StoreOp)
    (h : completedImpliesStamp store) :
    completedImpliesStamp (applyStoreOps store ops) := by
  induction ops generalizing store with
  | nil => exact h
  | cons op ops ih =>
    refine ih _ ?_
    cases op with
    | dalUpdateStatus key st msg now =>
      exact completedStamp_update_task_status store key st msg now h
    | dalUpdateBili b f ctx reset now =>
      exact completedStamp_update_bili store b f ctx reset now h
    | apiOverride id2 ss msg now =>
      exact completedStamp_api_override store id2 ss msg now h
    | apiCreate b f ctx newId now =>
      exact completedStamp_api_create store b f ctx newId now h
    | producerItem b f ctx dl newId now =>
      exact completedStamp_producer store b f ctx dl newId now h

/-- C2 witness: the invariant after the complete-then-fail history, through
the theorem. -/
theorem C2_completed_stamp_witness :
    completedImpliesStamp (applyStoreOps [sampleRow] sampleHistoryC2) :=
  C2_completed_stamp [sampleRow] sampleHistoryC2 (by
    unfold completedImpliesStamp
    decide)

/-! ### The `error_message` field (C4) -/

/-- C4 counterexample: failing a job and then overriding its status to
PENDING leaves `error_message` set on a non-FAILED row, refuting the claim
that every transition into PENDING or EXECUTING leaves `error_message`
null. -/
theorem C4_counterexample :
    ¬ (∀ r ∈ applyStoreOps [sampleRow] sampleHistoryC4,
        r.error_message ≠ none → r.status = TaskStatus.failed) := by
  decide

/-- C4 (amended): `error_message` is cleared on every transition into
COMPLETED (by the DAL status update and by the administrative override) and
on the payload reset to PENDING; but an administrative override into PENDING
or EXECUTING leaves every row's `error_message` unchanged, so a stale
message can persist on a non-FAILED row (see the counterexample). -/
theorem C4_error_message (store : List TaskRow) (key bvid favid ctx : String)
    (id2 now : Nat) (msg : Option String) :
    (∀ r ∈ update_task_status store key TaskStatus.completed msg now,
        r.task_key = key → r.error_message = none) ∧
    (∀ r ∈ update_bili_video_task store bvid favid ctx true now,
        r.task_key = make_bili_video_key bvid favid → r.error_message = none) ∧
    (∀ r ∈ (api_update_task_status store id2 "completed" msg now).1,
        r.id = id2 → r.error_message = none) ∧
    (∀ ss, ss = "pending" ∨ ss = "executing" →
      ((api_update_task_status store id2 ss msg now).1).map
          (fun r => r.error_message) =
        store.map (fun r => r.error_message)) := by
  refine ⟨?_, ?_, ?_, ?_⟩
  · intro r hr hrk
    unfold update_task_status at hr
    rw [List.mem_map] at hr
    obtain ⟨x, hx, rfl⟩ := hr
    by_cases hk : x.task_key = key
    · rw [if_pos hk]
      simp [updateValues]
    · rw [if_neg hk] at hrk ⊢
      exact absurd hrk hk
  · intro r hr hrk
    unfold update_bili_video_task at hr
    rw [List.mem_map] at hr
    obtain ⟨x, hx, rfl⟩ := hr
    by_cases hk : x.task_key = make_bili_video_key bvid favid
    · rw [if_pos hk]
      simp
    · rw [if_neg hk] at hrk ⊢
      exact absurd hrk hk
  · intro r hr hrid
    unfold api_update_task_status at hr
    rw [if_neg (by simp [validStatusStrs])] at hr
    cases hfind : store.find? (fun x => decide (x.id = id2)) with
    | none =>
      rw [hfind] at hr
      dsimp only at hr
      rw [List.find?_eq_none] at hfind
      exact absurd (by simp [hrid]) (hfind r hr)
    | some x0 =>
      rw [hfind] at hr
      dsimp only at hr
      rw [if_neg (by simp [statusOfStr]), if_neg (by simp [statusOfStr]),
        if_pos (by simp [statusOfStr])] at hr
      dsimp only at hr
      rw [List.mem_map] at hr
      obtain ⟨x, hx, rfl⟩ := hr
      by_cases hid : x.id = id2
      · rw [if_pos hid]
      · rw [if_neg hid] at hrid ⊢
        exact absurd hrid hid
  · intro ss hss
    have hvalid : ¬ ss ∉ validStatusStrs := by
      rcases hss with h | h <;> simp [h, validStatusStrs]
    have hnf : ¬ statusOfStr ss = TaskStatus.failed := by
      rcases hss with h | h <;> simp [h, statusOfStr]
    have hnc : ¬ statusOfStr ss = TaskStatus.completed := by
      rcases hss with h | h <;> simp [h, statusOfStr]
    unfold api_update_task_status
    rw [if_neg hvalid]
    cases hfind : store.find? (fun x => decide (x.id = id2)) with
    | none => rfl
    | some x0 =>
      dsimp only
      rw [if_neg (by simp [hnf]), if_neg hnf, if_neg hnc]
      dsimp only
      rw [List.map_map]
      apply List.map_congr_left
      intro x _
      by_cases hid : x.id = id2
      · rw [Function.comp_apply, if_pos hid]
      · rw [Function.comp_apply, if_neg hid]

/-- C4 witness: the amended theorem at the FAILED sample store — the
COMPLETED transition clears the message, and an override to PENDING keeps
the stored messages pointwise. -/
theorem C4_error_message_witness :
    (∀ r ∈ update_task_status sampleFailedStore sampleKey TaskStatus.completed
        none 7, r.task_key = sampleKey → r.error_message = none) ∧
    ((api_update_task_status sampleFailedStore 1 "pending" none 7).1).map
        (fun r => r.error_message) =
      sampleFailedStore.map (fun r => r.error_message) := by
  have h := C4_error_message sampleFailedStore sampleKey "BV1" "fav1" "ctx" 1 7 none
  exact ⟨h.1, h.2.2.2 "pending" (Or.inl rfl)⟩

/-! ### Concurrency limiter (C5) -/

/-- Running-unit count distributes over unit-list concatenation. -/
theorem countRunning_append (a b : List ExecUnit) :
    countRunning (a ++ b) = countRunning a + countRunning b := by
  unfold countRunning
  rw [List.countP_append]

/-- Freshly dispatched units are all waiting, so they add no running units. -/
theorem countRunning_waiting_map (l : List TaskRow) :
    countRunning (l.map (fun r => { key := r.task_key, phase := Phase.waiting })) = 0 := by
  unfold countRunning
  rw [List.countP_eq_zero]
  intro a ha
  rw [List.mem_map] at ha
  obtain ⟨x, -, rfl⟩ := ha
  simp

/-- Effect of replacing the unit at index `i` on the running count. -/
theorem countRunning_set (units : List ExecUnit) (i : Nat) (u v : ExecUnit)
    (h : units.get? i = some u) :
    countRunning (units.set i v) +
        (if u.phase = Phase.running then 1 else 0) =
      countRunning units + (if v.phase = Phase.running then 1 else 0) := by
  induction units generalizing i with
  | nil => simp [List.get?] at h
  | cons x xs ih =>
    cases i with
    | zero =>
      rw [List.get?] at h
      injection h with h
      simp only [List.set, countRunning, List.countP_cons, h]
      by_cases hu : u.phase = Phase.running <;>
        by_cases hv : v.phase = Phase.running <;> simp [hu, hv] <;> omega
    | succ n =>
      rw [List.get?] at h
      have hih := ih n h
      unfold countRunning at hih ⊢
      simp only [List.set, List.countP_cons]
      omega

/-- One scheduler step preserves `running + free permits = N`. -/
theorem permits_step (cfg : SysConfig) (s : SysState) (e : Event)
    (h : countRunning s.units + s.permits = cfg.max_concurrent_tasks) :
    countRunning (step cfg s e).units + (step cfg s e).permits =
      cfg.max_concurrent_tasks := by
  cases e with
  | poll =>
    simp only [step]
    unfold stepPoll
    by_cases hp : s.permits = 0
    · rw [if_pos hp]
      exact h
    · rw [if_neg hp]
      dsimp only
      rw [countRunning_append, countRunning_waiting_map]
      omega
  | acquire i now =>
    simp only [step]
    unfold stepAcquire
    cases hg : s.units.get? i with
    | none => exact h
    | some u =>
      dsimp only
      by_cases hc : u.phase = Phase.waiting ∧ 0 < s.permits
      · rw [if_pos hc]
        dsimp only
        have hset := countRunning_set s.units i u { u with phase := Phase.running } hg
        rw [if_neg (by rw [hc.1]; intro hx; exact Phase.noConfusion hx),
          if_pos rfl] at hset
        have hperm := hc.2
        omega
      · rw [if_neg hc]
        exact h
  | finish i o now =>
    simp only [step]
    unfold stepFinish
    cases hg : s.units.get? i with
    | none => exact h
    | some u =>
      dsimp only
      by_cases hc : u.phase = Phase.running
      · rw [if_pos hc]
        dsimp only
        have hset := countRunning_set s.units i u { u with phase := Phase.done } hg
        rw [if_pos hc, if_neg (by intro hx; exact Phase.noConfusion hx)] at hset
        omega
      · rw [if_neg hc]
        exact h

/-- C5: in every state reachable by any schedule, the number of units inside
the download/postprocess stage plus the free permits equals
`max_concurrent_tasks`; hence at most N executions occupy the stage
concurrently, however many jobs a consumer cycle dispatched.  Moreover a
`finish` step of a running unit — whatever its outcome: success, timeout or
exception — returns its permit. -/
theorem C5_limiter (cfg : SysConfig) (store : List TaskRow) (evs : List Event) :
    countRunning (runEvents cfg store evs).units +
        (runEvents cfg store evs).permits = cfg.max_concurrent_tasks ∧
    countRunning (runEvents cfg store evs).units ≤ cfg.max_concurrent_tasks ∧
    (∀ i (o : Outcome) now u, (runEvents cfg store evs).units.get? i = some u →
      u.phase = Phase.running →
      (step cfg (runEvents cfg store evs) (Event.finish i o now)).permits =
        (runEvents cfg store evs).permits + 1) := by
  have hinv : ∀ (l : List Event) (s : SysState),
      countRunning s.units + s.permits = cfg.max_concurrent_tasks →
      countRunning (l.foldl (step cfg) s).units +
        (l.foldl (step cfg) s).permits = cfg.max_concurrent_tasks := by
    intro l
    induction l with
    | nil => intro s hs; exact hs
    | cons e es ih =>
      intro s hs
      exact ih _ (permits_step cfg s e hs)
  have h0 : countRunning (initState cfg store).units +
      (initState cfg store).permits = cfg.max_concurrent_tasks := by
    simp [initState, countRunning]
  have hmain : countRunning (runEvents cfg store evs).units +
      (runEvents cfg store evs).permits = cfg.max_concurrent_tasks :=
    hinv evs (initState cfg store) h0
  refine ⟨hmain, by omega, ?_⟩
  intro i o now u hg hrun
  simp only [step]
  unfold stepFinish
  rw [hg]
  dsimp only
  rw [if_pos hrun]

/-- C5 witness: the bound and the release at a concrete schedule, through
the theorem. -/
theorem C5_limiter_witness :
    countRunning (runEvents sampleCfg [sampleRow]
        [Event.poll, Event.acquire 0 3]).units ≤
      sampleCfg.max_concurrent_tasks ∧
    (step sampleCfg (runEvents sampleCfg [sampleRow]
        [Event.poll, Event.acquire 0 3]) (Event.finish 0 Outcome.success 4)).permits =
      (runEvents sampleCfg [sampleRow] [Event.poll, Event.acquire 0 3]).permits + 1 := by
  have h := C5_limiter sampleCfg [sampleRow] [Event.poll, Event.acquire 0 3]
  exact ⟨h.2.1, h.2.2 0 Outcome.success 4
    { key := sampleKey, phase := Phase.running } (by decide) rfl⟩

/-! ### Executor outcome handling (C6) -/

/-- C6: when a claimed job's execution resolves — normal return within the
timeout, `asyncio.TimeoutError`, or any other exception — the job's row
transitions to COMPLETED, or to FAILED with the timeout-identifying message,
or to FAILED with the exception detail respectively; rows with other keys
are untouched (one job's failure never affects others), the permit is
returned in every case, and the timeout message contains the identifying
text `" timed out after "`.  The step function is total, so no outcome
crashes the consumer loop. -/
theorem C6_executor_outcomes (cfg : SysConfig) (s : SysState) (i now : Nat)
    (o : Outcome) (u : ExecUnit) (hu : s.units.get? i = some u)
    (hrun : u.phase = Phase.running) :
    (∀ r ∈ s.store, r.task_key ≠ u.key → r ∈ (stepFinish cfg s i o now).store) ∧
    (∀ r ∈ s.store, r.task_key = u.key →
      (o = Outcome.success →
        { r with status := TaskStatus.completed, updated_at := now, completed_at := some now, error_message := none } ∈ (stepFinish cfg s i o now).store) ∧
      (o = Outcome.timeout →
        { r with status := TaskStatus.failed, updated_at := now, error_message := some (timeoutMsg u.key cfg.task_timeout) } ∈ (stepFinish cfg s i o now).store) ∧
      (∀ e, o = Outcome.failure e →
        { r with status := TaskStatus.failed, updated_at := now, error_message := some (execErrorMsg u.key e) } ∈ (stepFinish cfg s i o now).store)) ∧
    (stepFinish cfg s i o now).permits = s.permits + 1 ∧
    List.IsInfix (" timed out after ").data
      (timeoutMsg u.key cfg.task_timeout).data := by
  have hstore : (stepFinish cfg s i o now).store =
      update_task_status s.store u.key (executeResult cfg u.key o).1
        (executeResult cfg u.key o).2 now := by
    unfold stepFinish
    rw [hu]
    dsimp only
    rw [if_pos hrun]
  have hpermits : (stepFinish cfg s i o now).permits = s.permits + 1 := by
    unfold stepFinish
    rw [hu]
    dsimp only
    rw [if_pos hrun]
  refine ⟨?_, ?_, hpermits, ?_⟩
  · intro r hr hne
    rw [hstore]
    unfold update_task_status
    have hmem := List.mem_map_of_mem
      (fun x => if x.task_key = u.key then
        updateValues x (executeResult cfg u.key o).1 (executeResult cfg u.key o).2 now
      else x) hr
    dsimp only at hmem
    rw [if_neg hne] at hmem
    exact hmem
  · intro r hr hke
    have hmem := List.mem_map_of_mem
      (fun x => if x.task_key = u.key then
        updateValues x (executeResult cfg u.key o).1 (executeResult cfg u.key o).2 now
      else x) hr
    dsimp only at hmem
    rw [if_pos hke] at hmem
    refine ⟨?_, ?_, ?_⟩
    · intro ho
      subst ho
      rw [hstore]
      unfold update_task_status
      simpa [executeResult, updateValues] using hmem
    · intro ho
      subst ho
      rw [hstore]
      unfold update_task_status
      simpa [executeResult, updateValues] using hmem
    · intro e ho
      subst ho
      rw [hstore]
      unfold update_task_status
      simpa [executeResult, updateValues] using hmem
  · refine ⟨("Task " ++ taskTupleRepr u.key).data,
      (toString cfg.task_timeout ++ "s").data, ?_⟩
    simp [timeoutMsg, String.data_append, List.append_assoc]

/-- C6 witness: a successful execution completes the claimed row, through
the theorem. -/
theorem C6_executor_outcomes_witness :
    { ({ sampleRow with status := TaskStatus.executing }) with status := TaskStatus.completed, updated_at := 7, completed_at := some 7, error_message := none } ∈
      (stepFinish sampleCfg sampleExecState 0 Outcome.success 7).store := by
  have h := C6_executor_outcomes sampleCfg sampleExecState 0 7 Outcome.success
    { key := sampleKey, phase := Phase.running } (by decide) rfl
  exact (h.2.1 { sampleRow with status := TaskStatus.executing }
    (by decide) (by decide)).1 rfl

/-! ### Consumer claiming discipline (C1) -/

/-- C1 counterexample: after one poll cycle over a one-row PENDING store the
unit for the row has been dispatched while the row is still PENDING and no
EXECUTING transition has happened — refuting "transition to EXECUTING before
dispatch" — and two poll cycles followed by both units acquiring produce two
EXECUTING transitions for the same row — refuting "exactly one EXECUTING
transition per row". -/
theorem C1_counterexample :
    (runEvents sampleCfg [sampleRow] [Event.poll]).units.map (fun u => u.key) =
      [sampleKey] ∧
    get_task_by_key (runEvents sampleCfg [sampleRow] [Event.poll]).store
      sampleKey = some sampleRow ∧
    (runEvents sampleCfg [sampleRow] [Event.poll]).claimLog = [] ∧
    (runEvents sampleCfg [sampleRow]
        [Event.poll, Event.poll, Event.acquire 0 1, Event.acquire 1 2]).claimLog =
      [sampleKey, sampleKey] := by
  decide

/-- C1 (amended): a consumer poll cycle dispatches one execution unit per
fetched PENDING row and performs no store write and no EXECUTING transition
itself — the row is dispatched while still PENDING; the PENDING → EXECUTING
claim is performed inside the dispatched unit when it acquires its permit.
Consequently a second poll cycle that runs before the units start re-fetches
the same PENDING set and dispatches every row a second time, and each
dispatched unit performs its own EXECUTING transition (two per row, not
one — see the counterexample). -/
theorem C1_claim_inside_unit (cfg : SysConfig) (s : SysState)
    (h : 0 < s.permits) :
    (stepPoll s).store = s.store ∧
    (stepPoll s).claimLog = s.claimLog ∧
    (stepPoll s).permits = s.permits ∧
    (stepPoll s).units = s.units ++ (get_pending_tasks s.store).map
      (fun r => { key := r.task_key, phase := Phase.waiting }) ∧
    (stepPoll (stepPoll s)).units = (s.units ++ (get_pending_tasks s.store).map
      (fun r => { key := r.task_key, phase := Phase.waiting })) ++
      (get_pending_tasks s.store).map
        (fun r => { key := r.task_key, phase := Phase.waiting }) ∧
    (∀ i now u, s.units.get? i = some u → u.phase = Phase.waiting →
      (stepAcquire s i now).store =
        update_task_status s.store u.key TaskStatus.executing none now ∧
      (stepAcquire s i now).claimLog = s.claimLog ++ [u.key]) := by
  have hne : ¬ s.permits = 0 := by omega
  have h1 : stepPoll s = { s with units := (s.units ++
      (get_pending_tasks s.store).map
        (fun r => { key := r.task_key, phase := Phase.waiting })) } := by
    unfold stepPoll
    rw [if_neg hne]
  refine ⟨by rw [h1], by rw [h1], by rw [h1], by rw [h1], ?_, ?_⟩
  · rw [h1]
    unfold stepPoll
    rw [if_neg hne]
  · intro i now u hg hw
    unfold stepAcquire
    rw [hg]
    dsimp only
    rw [if_pos ⟨hw, h⟩]
    exact ⟨rfl, rfl⟩

/-- C1 witness: the amended theorem after one poll over the sample store. -/
theorem C1_claim_inside_unit_witness :
    (stepPoll (runEvents sampleCfg [sampleRow] [Event.poll])).store =
      (runEvents sampleCfg [sampleRow] [Event.poll]).store ∧
    (stepAcquire (runEvents sampleCfg [sampleRow] [Event.poll]) 0 5).claimLog =
      (runEvents sampleCfg [sampleRow] [Event.poll]).claimLog ++ [sampleKey] := by
  have h := C1_claim_inside_unit sampleCfg
    (runEvents sampleCfg [sampleRow] [Event.poll]) (by decide)
  exact ⟨h.1, (h.2.2.2.2.2 0 5 { key := sampleKey, phase := Phase.waiting }
    (by decide) rfl).2⟩

end BLSync
